import Mathlib

/-!
Shallow embedding of the creek-monitoring dashboard (JavaScript sources:
`src/js/data-loader.js`, `src/js/charts.js`, the map module and the
demo-data variant of the data loader).  Pure functions of the source are
translated into executable Lean definitions; the stateful pieces
(`DataLoader` cache, `ChartManager` colors, `MapManager` markers) become
explicit state types with step functions.  JavaScript numbers are modelled
as rationals, JSON values as an inductive type carrying JavaScript
truthiness.
-/

namespace CreekMonitoring

/-- JSON values as JavaScript sees them; `truthy` mirrors JavaScript
truthiness (`null`, `false`, `0`, `""` are falsy; arrays and objects are
always truthy).  Numbers are rationals, so the `NaN` corner of JavaScript
truthiness does not arise. -/
inductive JsonVal where
  | jnull : JsonVal
  | jbool (b : Bool) : JsonVal
  | jnum (q : ℚ) : JsonVal
  | jstr (s : String) : JsonVal
  | jarr (elems : List JsonVal) : JsonVal
  | jobj (fields : List (String × JsonVal)) : JsonVal


def JsonVal.truthy : JsonVal → Bool
  | .jnull => false
  | .jbool b => b
  | .jnum q => decide (q ≠ 0)
  | .jstr s => decide (s ≠ "")
  | .jarr _ => true
  | .jobj _ => true

/-- JavaScript object assignment `o[k] = v` on an association list: an
existing key keeps its position, a new key is appended (JS property
insertion order). -/
def setKey {α : Type} (l : List (String × α)) (k : String) (v : α) : List (String × α) :=
  match l with
  | [] => [(k, v)]
  | (k0, v0) :: rest => if k0 = k then (k, v) :: rest else (k0, v0) :: setKey rest k v

/-- JavaScript `delete o[k]` on an association list. -/
def removeKey {α : Type} (l : List (String × α)) (k : String) : List (String × α) :=
  l.filter (fun p => p.1 ≠ k)

/-! ### DataLoader: `loadJSON` cache / in-flight state machine

`data-loader.js` lines 23–54.  The loader state holds `this.cache`
(cache key → JSON value; the constructor initialises the four keys to
`null`) and `this.loading` (cache key → the in-flight promise, modelled
by a numeric promise identifier). -/

structure LoaderState where
  cache : List (String × JsonVal)
  loading : List (String × Nat)


/-- Constructor state of `DataLoader`: the four cache slots hold `null`,
nothing is loading. -/
def initialLoaderState : LoaderState :=
  { cache := [("stations", .jnull), ("measurements", .jnull),
              ("latestValues", .jnull), ("analyteRanges", .jnull)],
    loading := [] }

/-- Truthiness test `if (this.cache[cacheKey])` of line 25. -/
def cacheTruthy (st : LoaderState) (k : String) : Bool :=
  match List.lookup k st.cache with
  | some v => v.truthy
  | none => false

/-- What a `loadJSON` call hands back: either a promise already resolved
with the cached value, or (a promise chained on) the in-flight fetch
promise identified by `pid`. -/
inductive LoadResult where
  | value (v : JsonVal) : LoadResult
  | promiseOf (pid : Nat) : LoadResult


/-- One synchronous run of `loadJSON(url, cacheKey)` (lines 23–54) from
state `st`; `fresh` is the identity of the promise a new `fetch` would
create.  Returns the result, the successor state, and whether a network
fetch was issued. -/
def loadJSON (st : LoaderState) (k : String) (fresh : Nat) : LoadResult × LoaderState × Bool :=
  if cacheTruthy st k then
    (.value ((List.lookup k st.cache).getD .jnull), st, false)
  else
    match List.lookup k st.loading with
    | some pid => (.promiseOf pid, st, false)
    | none => (.promiseOf fresh, { st with loading := setKey st.loading k fresh }, true)

/-- The success continuation of the fetch chain (lines 42–46): store the
parsed body in the cache and clear the loading slot. -/
def resolveSuccess (st : LoaderState) (k : String) (v : JsonVal) : LoaderState :=
  { cache := setKey st.cache k v, loading := removeKey st.loading k }

/-- The failure continuation (lines 47–51): clear the loading slot and
rethrow; the cache is untouched. -/
def resolveFailure (st : LoaderState) (k : String) : LoaderState :=
  { st with loading := removeKey st.loading k }

/-! ### DataLoader: `loadAllData` (data-loader.js lines 92–111, the
variant without the demo fallback)

The four resource loads are joined by `Promise.all`; each outcome is
modelled as an `Except`. -/

structure AppData where
  stations : JsonVal
  measurements : JsonVal
  latestValues : JsonVal
  analyteRanges : JsonVal


/-- `loadAllData()` over the outcomes of the four resource loads: the
aggregate object when all succeed, the (first) rejection otherwise —
the `catch` block rethrows the error unchanged. -/
def loadAllData (s m l r : Except String JsonVal) : Except String AppData := do
  let a ← s
  let b ← m
  let c ← l
  let d ← r
  return { stations := a, measurements := b, latestValues := c, analyteRanges := d }

/-! ### ChartManager: `fitAxesToData` (charts.js lines 303–335)

The function reads every `y` value of the visible datasets; we embed the
arithmetic on that list of values.  An empty list resets the bounds to
`undefined`, modelled as `none`. -/

/-- Axis fit: `min`/`max` over all visible values, `padding = range > 0 ?
range * 0.1 : Math.abs(min * 0.1) || 1`, then `y.min = Math.max(0, min -
padding)`, `y.max = max + padding`. -/
def fitAxesToData (allValues : List ℚ) : Option (ℚ × ℚ) :=
  match allValues with
  | [] => none
  | v :: vs =>
    let mn := vs.foldl min v
    let mx := vs.foldl max v
    let range := mx - mn
    let padding := if range > 0 then range * (1/10)
      else if |mn * (1/10)| = 0 then 1 else |mn * (1/10)|
    some (max 0 (mn - padding), mx + padding)

/-! ### ChartManager state (charts.js)

The chart state keeps `this.analyteColors` (analyte → assigned color, in
assignment order), `this.visibleAnalytes` (a JS `Set`, i.e. a
duplicate-free list in insertion order), `this.currentStation`, and the
labels of the datasets built by the last `updateChart`.  The measurement
data a chart reads is `station code → (analyte → list of y values)`;
a missing analyte key behaves like an empty list (both are skipped by
`updateChart`). -/

/-- JS `Set.prototype.add`: no-op on a present element, append otherwise. -/
def jsSetAdd {α : Type} [DecidableEq α] (l : List α) (a : α) : List α :=
  if a ∈ l then l else l ++ [a]

/-- JS `new Set(array)` / Set iteration order: the elements in first-seen
order, each kept once. -/
def jsSetOf {α : Type} [DecidableEq α] (l : List α) : List α :=
  l.foldl jsSetAdd []

/-- Fixed ten-color palette of `charts.js` lines 137–148. -/
def colorPalette : List String :=
  ["#28a745", "#007bff", "#ffc107", "#dc3545", "#6f42c1",
   "#fd7e14", "#20c997", "#e83e8c", "#6c757d", "#17a2b8"]

structure ChartState where
  analyteColors : List (String × String)
  visibleAnalytes : List String
  currentStation : Option String
  datasetLabels : List String
deriving DecidableEq

def initialChartState : ChartState :=
  { analyteColors := [], visibleAnalytes := [], currentStation := none, datasetLabels := [] }

/-- The color-assignment loop of `updateChart` (lines 206–215) together
with `createDataset`'s assignment (lines 242–245): walk the visible
analytes in order; an analyte with data advances `colorIndex` and, when
it has no color yet, is assigned `colorPalette[colorIndex %
colorPalette.length]`. -/
def assignColors (colors : List (String × String)) (visible : List String)
    (md : String → List ℚ) (idx : Nat) : List (String × String) :=
  match visible with
  | [] => colors
  | a :: rest =>
    if (md a).length > 0 then
      match List.lookup a colors with
      | some _ => assignColors colors rest md (idx + 1)
      | none =>
        assignColors (colors ++ [(a, colorPalette.getD (idx % colorPalette.length) "")])
          rest md (idx + 1)
    else assignColors colors rest md idx

/-- `updateChart` (lines 196–231), restricted to the state we track:
early return when no current station; otherwise rebuild the datasets
(one per visible analyte with data) and run the color assignment. -/
def updateChart (meas : String → Option (String → List ℚ)) (st : ChartState) : ChartState :=
  match st.currentStation with
  | none => st
  | some code =>
    match meas code with
    | none => st
    | some md =>
      { st with
        analyteColors := assignColors st.analyteColors st.visibleAnalytes md 0,
        datasetLabels := st.visibleAnalytes.filter (fun a => (md a).length > 0) }

/-- `clearChart` (lines 374–383): datasets emptied, current station and
visible set cleared — `analyteColors` is NOT touched. -/
def clearChart (st : ChartState) : ChartState :=
  { st with datasetLabels := [], currentStation := none, visibleAnalytes := [] }

/-- The session-level operations on the chart. -/
inductive ChartOp where
  | showStation (code : String) (visible : List String) : ChartOp
  | toggleAnalyte (a : String) (visible : Bool) : ChartOp
  | setVisibleAnalytes (l : List String) : ChartOp
  | clearChart : ChartOp

/-- One chart operation (`showStation` lines 175–191, `toggleAnalyte`
lines 342–351, `setVisibleAnalytes` lines 357–361, `clearChart` lines
374–383). -/
def chartStep (meas : String → Option (String → List ℚ)) (st : ChartState) :
    ChartOp → ChartState
  | .showStation code visible =>
    let st1 := { st with currentStation := some code, visibleAnalytes := jsSetOf visible }
    match meas code with
    | none => clearChart st1
    | some _ => updateChart meas st1
  | .toggleAnalyte a vis =>
    updateChart meas
      { st with visibleAnalytes :=
          if vis then jsSetAdd st.visibleAnalytes a
          else st.visibleAnalytes.filter (fun b => b ≠ a) }
  | .setVisibleAnalytes l =>
    updateChart meas { st with visibleAnalytes := jsSetOf l }
  | .clearChart => clearChart st

/-! ### ChartManager: `updateYAxisTitle` (charts.js lines 278–298) -/

/-- The units collected for the multi-analyte branch: map each visible
analyte to `analyteRanges?.[analyte]?.unit` and keep the truthy ones
(missing analytes and empty-string units are dropped by the
`filter(unit => unit)`). -/
def truthyUnits (visible : List String) (unitOf : String → Option String) : List String :=
  (visible.filterMap unitOf).filter (fun u => u ≠ "")

/-- `updateYAxisTitle`: one visible analyte → its name plus its unit when
truthy; several → `Value (u)` when the truthy units deduplicate to a
single `u`, else the generic `Value`. -/
def updateYAxisTitle (visible : List String) (unitOf : String → Option String) : String :=
  match visible with
  | [a] =>
    match unitOf a with
    | some u => if u = "" then a else a ++ " (" ++ u ++ ")"
    | none => a
  | _ :: _ :: _ =>
    match jsSetOf (truthyUnits visible unitOf) with
    | [u] => "Value (" ++ u ++ ")"
    | _ => "Value"
  | [] => "Value"

/-! ### DataLoader: `generateDemoData` (demo-data loader variant,
lines 129–242)

`generateTimeSeries` draws on `Math.random()`, so the time-series
generator is a parameter `gen`; the status classification applied to the
last element of the generated series is embedded exactly. -/

structure RangeDef where
  min : Option ℚ
  max : Option ℚ
  unit : Option String
deriving DecidableEq

structure Meas where
  date : String
  value : ℚ
deriving DecidableEq

structure LatestValue where
  value : ℚ
  date : String
  status : String
  unit : Option String
deriving DecidableEq

structure DemoStation where
  code : String
  name : String
  longitude : ℚ
  latitude : ℚ
  analytes : List String
  measurement_count : Nat
deriving DecidableEq

/-- Station coordinates hard-coded at lines 131–138. -/
def demoStationCoords : List (String × ℚ × ℚ) :=
  [("SRA190", -121.9883528, 37.7714199),
   ("SRA161", -121.981522, 37.811637),
   ("SRA160", -121.9852663, 37.8122981),
   ("SRA141", -121.9976948, 37.8238159),
   ("SRA120", -122.0205907, 37.8407117),
   ("SRA100", -122.0391426, 37.8647308)]

/-- Status classification of lines 168–174: `no_range` unless at least
one bound is present; otherwise `acceptable` iff the value passes every
present bound, else `outside_range`. -/
def demoStatus (range : RangeDef) (value : ℚ) : String :=
  if range.min.isSome || range.max.isSome then
    if (range.min.all fun m => decide (m ≤ value)) &&
       (range.max.all fun m => decide (value ≤ m)) then "acceptable"
    else "outside_range"
  else "no_range"

/-- The latest-value record built at lines 164–181 from a time series:
the last element's value and date, the status of that value, the range's
unit.  `none` models the out-of-bounds access on an empty series. -/
def latestOf (ts : List Meas) (range : RangeDef) : Option LatestValue :=
  ts.getLast?.map fun latest =>
    { value := latest.value, date := latest.date,
      status := demoStatus range latest.value, unit := range.unit }

/-- Station records built at lines 147–154. -/
def demoStations (ranges : List (String × RangeDef)) : List (String × DemoStation) :=
  demoStationCoords.map fun p =>
    (p.1, { code := p.1, name := "Station " ++ p.1, longitude := p.2.1,
            latitude := p.2.2, analytes := ranges.map Prod.fst, measurement_count := 50 })

/-- Per-station, per-analyte generated measurement series. -/
def demoMeasurements (gen : String → RangeDef → List Meas)
    (ranges : List (String × RangeDef)) : List (String × List (String × List Meas)) :=
  demoStationCoords.map fun p => (p.1, ranges.map fun q => (q.1, gen q.1 q.2))

/-- Per-station, per-analyte latest-value records (lines 164–181). -/
def demoLatestValues (gen : String → RangeDef → List Meas)
    (ranges : List (String × RangeDef)) :
    List (String × List (String × Option LatestValue)) :=
  demoStationCoords.map fun p =>
    (p.1, ranges.map fun q => (q.1, latestOf (gen q.1 q.2) q.2))

/-- `generateDemoData(analyteRanges)` parametrised by the time-series
generator: for each hard-coded station, a station record, per-analyte
measurements `gen a r`, and the latest-value records. -/
def generateDemoData (gen : String → RangeDef → List Meas)
    (ranges : List (String × RangeDef)) :
    List (String × DemoStation) × List (String × List (String × List Meas)) ×
      List (String × List (String × Option LatestValue)) :=
  (demoStations ranges, demoMeasurements gen ranges, demoLatestValues gen ranges)

/-! ### DataLoader: `getAnalytes` (data-loader.js lines 118–126)

`Object.values(data.stations)` iterates stations in insertion order;
every station's analyte list is poured into a `Set`, and the resulting
array is sorted with the default lexicographic comparator. -/

structure StationRec where
  name : String
  latitude : ℚ
  longitude : ℚ
  analytes : List String
deriving DecidableEq

/-- `getAnalytes(data)`: union of all stations' analyte lists,
deduplicated by the `Set`, then sorted ascending. -/
def getAnalytes (stations : List StationRec) : List String :=
  List.insertionSort (fun a b => a ≤ b)
    (jsSetOf (stations.flatMap StationRec.analytes))

/-! ### MapManager (map module)

State: `this.markers` (station code → marker) and the viewport.  A
marker's mutable parts are its position, radius, fill color and popup;
the popup's locale-dependent HTML is abstracted to its semantic content
(which station, analyte and latest value it was generated from). -/

structure PopupInfo where
  code : String
  station : Option StationRec
  analyte : Option String
  latest : Option LatestValue
deriving DecidableEq

structure Marker where
  lat : ℚ
  lng : ℚ
  radius : ℚ
  fillColor : String
  popup : PopupInfo
deriving DecidableEq

/-- Viewport: either untouched or fitted (`fitBounds`) to a list of
marker positions. -/
inductive Viewport where
  | initial : Viewport
  | fittedTo (positions : List (ℚ × ℚ)) : Viewport
deriving DecidableEq

structure MapState where
  markers : List (String × Marker)
  viewport : Viewport
deriving DecidableEq

structure MapData where
  stations : List (String × StationRec)
  latestValues : List (String × List (String × LatestValue))
deriving DecidableEq

/-- Marker color table of the map module lines 23–28. -/
def markerColors : List (String × String) :=
  [("acceptable", "#28a745"), ("outside_range", "#dc3545"),
   ("no_range", "#007bff"), ("no_data", "#6c757d")]

/-- `this.markerColors[status] || this.markerColors.no_data`. -/
def colorForStatus (status : String) : String :=
  (List.lookup status markerColors).getD "#6c757d"

/-- The latest-value lookup `analyte && this.data.latestValues[code] &&
this.data.latestValues[code][analyte]` shared by `addStationMarker`
(lines 119–128) and `updateMarkerColors` (lines 227–249). -/
def latestFor (data : MapData) (code : String) (analyte : Option String) :
    Option LatestValue :=
  match analyte with
  | none => none
  | some a =>
    match List.lookup code data.latestValues with
    | none => none
    | some m => List.lookup a m

/-- Status used for a marker: the latest value's status when the lookup
succeeds, `no_data` otherwise. -/
def markerStatus (data : MapData) (code : String) (analyte : Option String) : String :=
  match latestFor data code analyte with
  | some lv => lv.status
  | none => "no_data"

/-- `createPopupContent` abstracted to its inputs (the HTML string is a
pure function of these four). -/
def mkPopupInfo (data : MapData) (code : String) (analyte : Option String) : PopupInfo :=
  { code := code, station := List.lookup code data.stations, analyte := analyte,
    latest := latestFor data code analyte }

/-- `addStationMarker` + `createStationMarker` (lines 119–151 and
160–172): a radius-8 circle marker at the station's coordinates, filled
with the status color, carrying the popup. -/
def mkStationMarker (data : MapData) (analyte : Option String)
    (code : String) (station : StationRec) : Marker :=
  { lat := station.latitude, lng := station.longitude, radius := 8,
    fillColor := colorForStatus (markerStatus data code analyte),
    popup := mkPopupInfo data code analyte }

/-- `addStationMarkers(analyte)` (lines 93–111): clear all markers, add
one marker per station, then `fitToMarkers` (a no-op on an empty marker
set). -/
def addStationMarkers (data : MapData) (analyte : Option String) (st : MapState) : MapState :=
  let ms := data.stations.map fun p => (p.1, mkStationMarker data analyte p.1 p.2)
  { markers := ms,
    viewport := if ms.isEmpty then st.viewport
      else .fittedTo (ms.map fun p => (p.2.lat, p.2.lng)) }

/-- `updateMarkerColors(analyte)` (lines 227–249): for every existing
marker, `setStyle({fillColor})` and `setPopupContent(...)`; nothing else
is touched. -/
def updateMarkerColors (data : MapData) (analyte : Option String) (st : MapState) : MapState :=
  { st with markers := st.markers.map fun p =>
      (p.1, { p.2 with
        fillColor := colorForStatus (markerStatus data p.1 analyte),
        popup := mkPopupInfo data p.1 analyte }) }

/-! ## Theorems -/

theorem foldlMin_mem {α : Type} [LinearOrder α] (vs : List α) :
    ∀ v : α, vs.foldl min v ∈ v :: vs := by
  induction vs with
  | nil => intro v; simp
  | cons a vs ih =>
    intro v
    have h := ih (min v a)
    simp only [List.foldl_cons]
    rcases List.mem_cons.mp h with h1 | h1
    · rcases min_choice v a with hc | hc
      · rw [h1, hc]; exact List.mem_cons_self _ _
      · rw [h1, hc]; exact List.mem_cons_of_mem _ (List.mem_cons_self _ _)
    · exact List.mem_cons_of_mem _ (List.mem_cons_of_mem _ h1)

theorem foldlMin_le {α : Type} [LinearOrder α] (vs : List α) :
    ∀ v x : α, x ∈ v :: vs → vs.foldl min v ≤ x := by
  induction vs with
  | nil => intro v x hx; rw [List.mem_singleton] at hx; simp [hx]
  | cons a vs ih =>
    intro v x hx
    simp only [List.foldl_cons]
    have hself : vs.foldl min (min v a) ≤ min v a := ih _ _ (List.mem_cons_self _ _)
    rcases List.mem_cons.mp hx with rfl | hx1
    · exact le_trans hself (min_le_left _ _)
    · rcases List.mem_cons.mp hx1 with rfl | hx2
      · exact le_trans hself (min_le_right _ _)
      · exact ih _ _ (List.mem_cons_of_mem _ hx2)

theorem foldlMax_mem {α : Type} [LinearOrder α] (vs : List α) :
    ∀ v : α, vs.foldl max v ∈ v :: vs := by
  induction vs with
  | nil => intro v; simp
  | cons a vs ih =>
    intro v
    have h := ih (max v a)
    simp only [List.foldl_cons]
    rcases List.mem_cons.mp h with h1 | h1
    · rcases max_choice v a with hc | hc
      · rw [h1, hc]; exact List.mem_cons_self _ _
      · rw [h1, hc]; exact List.mem_cons_of_mem _ (List.mem_cons_self _ _)
    · exact List.mem_cons_of_mem _ (List.mem_cons_of_mem _ h1)

theorem foldlMax_ge {α : Type} [LinearOrder α] (vs : List α) :
    ∀ v x : α, x ∈ v :: vs → x ≤ vs.foldl max v := by
  induction vs with
  | nil => intro v x hx; rw [List.mem_singleton] at hx; simp [hx]
  | cons a vs ih =>
    intro v x hx
    simp only [List.foldl_cons]
    have hself : max v a ≤ vs.foldl max (max v a) := ih _ _ (List.mem_cons_self _ _)
    rcases List.mem_cons.mp hx with rfl | hx1
    · exact le_trans (le_max_left _ _) hself
    · rcases List.mem_cons.mp hx1 with rfl | hx2
      · exact le_trans (le_max_right _ _) hself
      · exact ih _ _ (List.mem_cons_of_mem _ hx2)

theorem fitAxes_padding_eq (mn mx : ℚ) :
    (if mx - mn > 0 then (mx - mn) * (1/10)
      else if |mn * (1/10)| = 0 then 1 else |mn * (1/10)|)
    = (if 0 < mx - mn then (mx - mn) / 10 else if mn = 0 then 1 else |mn| / 10) := by
  by_cases hr : 0 < mx - mn
  · simp only [gt_iff_lt, if_pos hr]; ring
  · simp only [gt_iff_lt, if_neg hr]
    have habs : |mn * (1/10)| = |mn| / 10 := by
      rw [abs_mul, abs_of_pos (by norm_num : (0:ℚ) < 1/10)]
      ring
    rw [habs]
    by_cases hz : mn = 0
    · simp [hz]
    · have h1 : ¬(|mn| / 10 = 0) := by
        simp [div_eq_zero_iff, abs_eq_zero, hz]
      simp [h1, hz]

/-- C1: for every non-empty list of visible values, `fitAxesToData`
returns `y-min = max(0, min - p)` and `y-max = max + p`, where `p` is a
tenth of the span when the span is positive, a tenth of `|min|` when the
span is zero and the value nonzero, and the fixed default `1` when the
value is zero; in particular `[10, 20]` yields `(9, 21)`, and the lower
bound is never negative. -/
theorem fitAxesToData_spec (l : List ℚ) (h : l ≠ []) :
    ∃ mn mx p : ℚ,
      (mn ∈ l ∧ ∀ x ∈ l, mn ≤ x) ∧
      (mx ∈ l ∧ ∀ x ∈ l, x ≤ mx) ∧
      p = (if 0 < mx - mn then (mx - mn) / 10 else if mn = 0 then 1 else |mn| / 10) ∧
      fitAxesToData l = some (max 0 (mn - p), mx + p) ∧
      (∀ ymin ymax : ℚ, fitAxesToData l = some (ymin, ymax) → 0 ≤ ymin) ∧
      fitAxesToData [10, 20] = some (9, 21) := by
  match l, h with
  | v :: vs, _ =>
    refine ⟨vs.foldl min v, vs.foldl max v,
      (if 0 < vs.foldl max v - vs.foldl min v
        then (vs.foldl max v - vs.foldl min v) / 10
        else if vs.foldl min v = 0 then 1 else |vs.foldl min v| / 10),
      ⟨foldlMin_mem vs v, fun x hx => foldlMin_le vs v x hx⟩,
      ⟨foldlMax_mem vs v, fun x hx => foldlMax_ge vs v x hx⟩, rfl, ?_, ?_,
      by simp only [fitAxesToData, List.foldl]; norm_num⟩
    · show fitAxesToData (v :: vs) = _
      simp only [fitAxesToData]
      rw [fitAxes_padding_eq]
    · intro ymin ymax heq
      simp only [fitAxesToData, Option.some.injEq, Prod.mk.injEq] at heq
      rw [← heq.1]
      exact le_max_left _ _

theorem fitAxesToData_spec_witness :
    (([10, 20] : List ℚ) ≠ []) ∧
      ∃ mn mx p : ℚ,
        (mn ∈ ([10, 20] : List ℚ) ∧ ∀ x ∈ ([10, 20] : List ℚ), mn ≤ x) ∧
        (mx ∈ ([10, 20] : List ℚ) ∧ ∀ x ∈ ([10, 20] : List ℚ), x ≤ mx) ∧
        p = (if 0 < mx - mn then (mx - mn) / 10 else if mn = 0 then 1 else |mn| / 10) ∧
        fitAxesToData [10, 20] = some (max 0 (mn - p), mx + p) ∧
        (∀ ymin ymax : ℚ, fitAxesToData [10, 20] = some (ymin, ymax) → 0 ≤ ymin) ∧
        fitAxesToData [10, 20] = some (9, 21) :=
  ⟨by decide, fitAxesToData_spec [10, 20] (by decide)⟩

theorem loadAllData_isOk (s m l r : Except String JsonVal) :
    (loadAllData s m l r).isOk = (s.isOk && m.isOk && l.isOk && r.isOk) := by
  cases s <;> cases m <;> cases l <;> cases r <;> rfl

theorem loadAllData_ok_iff (s m l r : Except String JsonVal) (a b c d : JsonVal) :
    loadAllData s m l r = .ok ⟨a, b, c, d⟩ ↔
      s = .ok a ∧ m = .ok b ∧ l = .ok c ∧ r = .ok d := by
  cases s <;> cases m <;> cases l <;> cases r <;>
    simp [loadAllData, Bind.bind, Except.bind, Pure.pure, Except.pure, AppData.mk.injEq]

/-- C4: `loadAllData` either returns the aggregate of exactly the four
fetched resources, or fails; it succeeds precisely when all four loads
succeed, and any single failure makes the whole call fail (no partial
result). -/
theorem loadAllData_contract (s m l r : Except String JsonVal) :
    (∀ agg, loadAllData s m l r = .ok agg →
      s = .ok agg.stations ∧ m = .ok agg.measurements ∧
        l = .ok agg.latestValues ∧ r = .ok agg.analyteRanges) ∧
    ((∃ agg, loadAllData s m l r = .ok agg) ↔
      s.isOk = true ∧ m.isOk = true ∧ l.isOk = true ∧ r.isOk = true) ∧
    (∀ e, (s = .error e ∨ m = .error e ∨ l = .error e ∨ r = .error e) →
      ∃ e2, loadAllData s m l r = .error e2) := by
  refine ⟨?_, ?_, ?_⟩
  · intro agg hok
    obtain ⟨a, b, c, d⟩ := agg
    exact (loadAllData_ok_iff s m l r a b c d).mp hok
  · constructor
    · rintro ⟨agg, hok⟩
      have hiso := loadAllData_isOk s m l r
      rw [hok] at hiso
      simp only [Except.isOk, Except.toBool] at hiso ⊢
      have := hiso.symm
      simp only [Bool.and_eq_true] at this
      exact ⟨this.1.1.1, this.1.1.2, this.1.2, this.2⟩
    · rintro ⟨hs, hm, hl2, hr2⟩
      have hok : (loadAllData s m l r).isOk = true := by
        rw [loadAllData_isOk, hs, hm, hl2, hr2]
        rfl
      cases hres : loadAllData s m l r with
      | ok agg => exact ⟨agg, rfl⟩
      | error e =>
        rw [hres] at hok
        simp [Except.isOk, Except.toBool] at hok
  · intro e h
    have hok : (loadAllData s m l r).isOk = false := by
      rw [loadAllData_isOk]
      rcases h with h | h | h | h <;> rw [h] <;> simp [Except.isOk, Except.toBool]
    cases hres : loadAllData s m l r with
    | ok agg =>
      rw [hres] at hok
      simp [Except.isOk, Except.toBool] at hok
    | error e2 => exact ⟨e2, rfl⟩

theorem loadAllData_contract_witness :
    ∃ agg, loadAllData (.ok .jnull) (.ok .jnull) (.ok .jnull) (.ok .jnull) = .ok agg :=
  ((loadAllData_contract (.ok .jnull) (.ok .jnull) (.ok .jnull) (.ok .jnull)).2.1).mpr
    ⟨rfl, rfl, rfl, rfl⟩

theorem lookup_setKey_self {α : Type} (l : List (String × α)) (k : String) (v : α) :
    List.lookup k (setKey l k v) = some v := by
  induction l with
  | nil => simp [setKey, List.lookup]
  | cons p rest ih =>
    obtain ⟨k0, v0⟩ := p
    by_cases hk : k0 = k
    · simp [setKey, hk, List.lookup]
    · simp only [setKey, if_neg hk, List.lookup]
      have : (k == k0) = false := by
        simp [beq_iff_eq]
        exact fun hh => hk hh.symm
      simp [this, ih]

theorem lookup_removeKey_self {α : Type} (l : List (String × α)) (k : String) :
    List.lookup k (removeKey l k) = none := by
  induction l with
  | nil => rfl
  | cons p rest ih =>
    obtain ⟨k0, v0⟩ := p
    simp only [removeKey, List.filter_cons] at ih ⊢
    by_cases hk : k0 = k
    · have hd : (decide ((k0, v0).1 ≠ k)) = false := by simp [hk]
      rw [hd]
      exact ih
    · have hd : (decide ((k0, v0).1 ≠ k)) = true := by simp [hk]
      rw [hd]
      simp only [if_true]
      have hbeq : (k == k0) = false := by
        simp only [beq_eq_false_iff_ne, ne_eq]
        exact fun hh => hk hh.symm
      simp only [List.lookup, hbeq]
      exact ih

/-- C9: the cache-hit check of `loadJSON` tests the cached value for
truthiness, so after a successful fetch that produced a falsy JSON body
(`null`, `false`, `0`, `""`), the next call for the same key re-issues
the network fetch instead of returning the cached value; conversely a
truthy body is served from the cache with no fetch. -/
theorem loadJSON_truthiness_gap (st : LoaderState) (k : String) (v : JsonVal) (fresh : Nat)
    (hfalsy : v.truthy = false) :
    (loadJSON (resolveSuccess st k v) k fresh).2.2 = true ∧
    (loadJSON (resolveSuccess st k v) k fresh).1 = .promiseOf fresh := by
  have hcache : cacheTruthy (resolveSuccess st k v) k = false := by
    simp [cacheTruthy, resolveSuccess, lookup_setKey_self, hfalsy]
  have hload : List.lookup k (resolveSuccess st k v).loading = none := by
    simp [resolveSuccess, lookup_removeKey_self]
  simp [loadJSON, hcache, hload]

theorem loadJSON_truthiness_gap_witness :
    JsonVal.jnull.truthy = false ∧
    (loadJSON (resolveSuccess initialLoaderState "stations" .jnull) "stations" 7).2.2 = true ∧
    (loadJSON (resolveSuccess initialLoaderState "stations" .jnull) "stations" 7).1 =
      .promiseOf 7 :=
  ⟨rfl, loadJSON_truthiness_gap initialLoaderState "stations" .jnull 7 rfl⟩

/-- C3 counterexample: a `loadJSON` call for `stations` issues a fetch;
after that fetch completes successfully with body `null`, the next call
for the same key issues a network fetch again — refuting the claim that
after a successful fetch every subsequent call is served from the cache
without a network request. -/
theorem loadJSON_refetch_after_success_cex :
    (loadJSON initialLoaderState "stations" 0).2.2 = true ∧
    (loadJSON (resolveSuccess (loadJSON initialLoaderState "stations" 0).2.1 "stations"
      .jnull) "stations" 1).2.2 = true :=
  ⟨rfl, rfl⟩

/-- C3 (amended): a call made while a fetch for the key is in flight
(and the cache slot is not truthy) returns the same in-flight promise
and issues no fetch; after a fetch completed successfully with a TRUTHY
JSON value, every subsequent call returns the cached value without a
fetch; two concurrent loads of the same key issue exactly one fetch. -/
theorem loadJSON_dedup_memo (st : LoaderState) (k : String) :
    (∀ p fresh, cacheTruthy st k = false → List.lookup k st.loading = some p →
      loadJSON st k fresh = (.promiseOf p, st, false)) ∧
    (∀ v fresh, v.truthy = true →
      loadJSON (resolveSuccess st k v) k fresh =
        (.value v, resolveSuccess st k v, false)) ∧
    (∀ f1 f2, cacheTruthy st k = false → List.lookup k st.loading = none →
      (loadJSON st k f1).2.2 = true ∧
      (loadJSON (loadJSON st k f1).2.1 k f2).2.2 = false ∧
      (loadJSON (loadJSON st k f1).2.1 k f2).1 = .promiseOf f1 ∧
      (loadJSON (loadJSON st k f1).2.1 k f2).2.1 = (loadJSON st k f1).2.1) := by
  refine ⟨?_, ?_, ?_⟩
  · intro p fresh hc hl
    simp [loadJSON, hc, hl]
  · intro v fresh htruthy
    have hcache : cacheTruthy
        (LoaderState.mk (setKey st.cache k v) (removeKey st.loading k)) k = true := by
      simp [cacheTruthy, lookup_setKey_self, htruthy]
    simp [loadJSON, resolveSuccess, hcache, lookup_setKey_self]
  · intro f1 f2 hc hl
    have h1 : loadJSON st k f1 =
        (.promiseOf f1, { st with loading := setKey st.loading k f1 }, true) := by
      simp [loadJSON, hc, hl]
    have hc2 : cacheTruthy { st with loading := setKey st.loading k f1 } k = false := by
      simpa [cacheTruthy] using hc
    have hl2 : List.lookup k (setKey st.loading k f1) = some f1 := lookup_setKey_self _ _ _
    rw [h1]
    simp [loadJSON, hc2, hl2]

theorem loadJSON_dedup_memo_witness :
    cacheTruthy initialLoaderState "stations" = false ∧
    List.lookup "stations" initialLoaderState.loading = none ∧
    (loadJSON initialLoaderState "stations" 0).2.2 = true ∧
    (loadJSON (loadJSON initialLoaderState "stations" 0).2.1 "stations" 1).2.2 = false ∧
    (loadJSON (loadJSON initialLoaderState "stations" 0).2.1 "stations" 1).1 =
      .promiseOf 0 ∧
    (loadJSON (loadJSON initialLoaderState "stations" 0).2.1 "stations" 1).2.1 =
      (loadJSON initialLoaderState "stations" 0).2.1 :=
  ⟨rfl, rfl, (loadJSON_dedup_memo initialLoaderState "stations").2.2 0 1 rfl rfl⟩

theorem lookup_append_some {α : Type} (l1 l2 : List (String × α)) (k : String) (c : α)
    (h : List.lookup k l1 = some c) : List.lookup k (l1 ++ l2) = some c := by
  induction l1 with
  | nil => simp [List.lookup] at h
  | cons p rest ih =>
    obtain ⟨k0, v0⟩ := p
    simp only [List.cons_append, List.lookup] at h ⊢
    cases hbeq : (k == k0) with
    | true => rw [hbeq] at h; exact h
    | false => rw [hbeq] at h; exact ih h

theorem assignColors_preserves (visible : List String) :
    ∀ (colors : List (String × String)) (md : String → List ℚ) (idx : Nat)
      (a : String) (c : String), List.lookup a colors = some c →
      List.lookup a (assignColors colors visible md idx) = some c := by
  induction visible with
  | nil => intro colors md idx a c h; simpa [assignColors] using h
  | cons b rest ih =>
    intro colors md idx a c h
    simp only [assignColors]
    by_cases hdata : (md b).length > 0
    · simp only [if_pos hdata]
      cases hb : List.lookup b colors with
      | some c0 => exact ih colors md (idx + 1) a c h
      | none => exact ih _ md (idx + 1) a c (lookup_append_some _ _ _ _ h)
    · simp only [if_neg hdata]
      exact ih colors md idx a c h

theorem updateChart_preserves_color (meas : String → Option (String → List ℚ))
    (st : ChartState) (a c : String) (h : List.lookup a st.analyteColors = some c) :
    List.lookup a (updateChart meas st).analyteColors = some c := by
  unfold updateChart
  cases hcs : st.currentStation with
  | none => simp only [hcs]; exact h
  | some code =>
    simp only [hcs]
    cases hm : meas code with
    | none => simp only [hm]; exact h
    | some md =>
      simp only [hm]
      exact assignColors_preserves st.visibleAnalytes st.analyteColors md 0 a c h

/-- C5 (amended): once an analyte has been assigned a color, every later
chart operation of the session — redraw via `showStation`, toggling,
replacing the visible set, clearing the chart — leaves that assignment
unchanged; but the palette index used at first assignment is the
analyte's dataset position within the redraw where it first appears, not
its global first-seen rank (see the counterexample). -/
theorem analyteColors_stable (meas : String → Option (String → List ℚ))
    (st : ChartState) (op : ChartOp) (a c : String)
    (h : List.lookup a st.analyteColors = some c) :
    List.lookup a (chartStep meas st op).analyteColors = some c := by
  cases op with
  | showStation code visible =>
    simp only [chartStep]
    cases meas code with
    | none => exact h
    | some md => exact updateChart_preserves_color meas _ a c h
  | toggleAnalyte b vis => exact updateChart_preserves_color meas _ a c h
  | setVisibleAnalytes l => exact updateChart_preserves_color meas _ a c h
  | clearChart => exact h

theorem analyteColors_stable_witness :
    List.lookup "A"
      (chartStep (fun _ => some fun _ => [(1 : ℚ)]) initialChartState
        (.showStation "S" ["A", "B"])).analyteColors = some "#28a745" ∧
    List.lookup "A"
      (chartStep (fun _ => some fun _ => [(1 : ℚ)])
        (chartStep (fun _ => some fun _ => [(1 : ℚ)]) initialChartState
          (.showStation "S" ["A", "B"]))
        .clearChart).analyteColors = some "#28a745" :=
  ⟨rfl, analyteColors_stable (fun _ => some fun _ => [(1 : ℚ)]) _ .clearChart "A" "#28a745" rfl⟩

/-- C5 counterexample: after showing station `S` with analytes `A`, `B`
and then replacing the visible set by `B`, `C`, the third analyte ever
assigned a color (`C`) receives `colorPalette[1]` = the color already
held by `B`, not the third palette color — the assignment index is the
dataset position within the current redraw, not the first-seen rank, so
the claimed draw from the palette "by first-seen order" fails. -/
theorem analyteColor_first_seen_cex :
    (chartStep (fun _ => some fun _ => [(1 : ℚ)])
        (chartStep (fun _ => some fun _ => [(1 : ℚ)]) initialChartState
          (.showStation "S" ["A", "B"]))
        (.setVisibleAnalytes ["B", "C"])).analyteColors
      = [("A", "#28a745"), ("B", "#007bff"), ("C", "#007bff")] ∧
    colorPalette.getD 2 "" = "#ffc107" ∧ ("#007bff" : String) ≠ "#ffc107" :=
  ⟨rfl, rfl, by decide⟩

theorem mem_jsSetAdd {α : Type} [DecidableEq α] (l : List α) (a x : α) :
    x ∈ jsSetAdd l a ↔ x ∈ l ∨ x = a := by
  unfold jsSetAdd
  by_cases h : a ∈ l
  · simp only [if_pos h]
    constructor
    · exact Or.inl
    · rintro (hx | rfl)
      · exact hx
      · exact h
  · simp [if_neg h, List.mem_append]

theorem mem_foldl_jsSetAdd {α : Type} [DecidableEq α] (l : List α) :
    ∀ (acc : List α) (x : α), x ∈ l.foldl jsSetAdd acc ↔ x ∈ acc ∨ x ∈ l := by
  induction l with
  | nil => intro acc x; simp
  | cons a t ih =>
    intro acc x
    simp only [List.foldl_cons]
    rw [ih (jsSetAdd acc a) x, mem_jsSetAdd]
    simp only [List.mem_cons]
    tauto

theorem mem_jsSetOf {α : Type} [DecidableEq α] (l : List α) (x : α) :
    x ∈ jsSetOf l ↔ x ∈ l := by
  unfold jsSetOf
  rw [mem_foldl_jsSetAdd]
  simp

theorem jsSetAdd_of_mem {α : Type} [DecidableEq α] {l : List α} {a : α} (h : a ∈ l) :
    jsSetAdd l a = l := by
  simp [jsSetAdd, h]

theorem foldl_jsSetAdd_all_eq {α : Type} [DecidableEq α] (u : α) :
    ∀ (l acc : List α), (∀ x ∈ l, x = u) → u ∈ acc → l.foldl jsSetAdd acc = acc := by
  intro l
  induction l with
  | nil => intro acc _ _; rfl
  | cons a t ih =>
    intro acc hall hu
    have ha : a = u := hall a (List.mem_cons_self _ _)
    simp only [List.foldl_cons]
    rw [ha, jsSetAdd_of_mem hu]
    exact ih acc (fun x hx => hall x (List.mem_cons_of_mem _ hx)) hu

theorem jsSetOf_eq_singleton_iff {α : Type} [DecidableEq α] (l : List α) (u : α) :
    jsSetOf l = [u] ↔ l ≠ [] ∧ ∀ x ∈ l, x = u := by
  constructor
  · intro h
    refine ⟨?_, ?_⟩
    · intro hnil
      rw [hnil] at h
      exact absurd h (by simp [jsSetOf])
    · intro x hx
      have hx2 : x ∈ jsSetOf l := (mem_jsSetOf l x).mpr hx
      rw [h] at hx2
      simpa using hx2
  · rintro ⟨hne, hall⟩
    match l, hne with
    | a :: t, _ =>
      have ha : a = u := hall a (List.mem_cons_self _ _)
      show (a :: t).foldl jsSetAdd [] = [u]
      simp only [List.foldl_cons]
      rw [show jsSetAdd ([] : List α) a = [a] from by simp [jsSetAdd], ha]
      exact foldl_jsSetAdd_all_eq u t [u]
        (fun x hx => hall x (List.mem_cons_of_mem _ hx)) (by simp)

/-- C6 counterexample: with two visible analytes where `A` has unit
`mg/L` and `B` has no unit at all, the y-axis label is `Value (mg/L)` —
a unit-bearing label — although not all visible analytes share one unit
string; the claim predicts the generic label in this case. -/
theorem yAxisTitle_missing_unit_cex :
    updateYAxisTitle ["A", "B"] (fun a => if a = "A" then some "mg/L" else none)
      = "Value (mg/L)" ∧ ("Value (mg/L)" : String) ≠ "Value" :=
  ⟨by decide, by decide⟩

/-- C6 (amended): with two or more visible analytes, the y-axis label
reflects a unit string exactly when the visible analytes THAT HAVE a
truthy unit all agree on one unit `u` (analytes with no unit or an empty
unit are ignored); when no visible analyte has a unit, or two distinct
units occur, the generic label `Value` is used. -/
theorem yAxisTitle_unit_rule (visible : List String) (unitOf : String → Option String)
    (h2 : 2 ≤ visible.length) :
    (∀ u, u ∈ truthyUnits visible unitOf →
        (∀ v ∈ truthyUnits visible unitOf, v = u) →
        updateYAxisTitle visible unitOf = "Value (" ++ u ++ ")") ∧
    ((truthyUnits visible unitOf = [] ∨
        ∃ u v, u ∈ truthyUnits visible unitOf ∧ v ∈ truthyUnits visible unitOf ∧ u ≠ v) →
      updateYAxisTitle visible unitOf = "Value") := by
  match visible, h2 with
  | a :: b :: t, _ =>
    constructor
    · intro u hu hall
      have hs : jsSetOf (truthyUnits (a :: b :: t) unitOf) = [u] :=
        (jsSetOf_eq_singleton_iff _ u).mpr ⟨List.ne_nil_of_mem hu, hall⟩
      simp only [updateYAxisTitle, hs]
    · intro hcase
      rcases hcase with hnil | ⟨u, v, hu, hv, huv⟩
      · have hs : jsSetOf (truthyUnits (a :: b :: t) unitOf) = [] := by
          rw [hnil]; rfl
        simp only [updateYAxisTitle, hs]
      · cases hset : jsSetOf (truthyUnits (a :: b :: t) unitOf) with
        | nil => simp only [updateYAxisTitle, hset]
        | cons w ws =>
          cases ws with
          | nil =>
            exfalso
            have hu2 : u ∈ jsSetOf (truthyUnits (a :: b :: t) unitOf) :=
              (mem_jsSetOf _ _).mpr hu
            have hv2 : v ∈ jsSetOf (truthyUnits (a :: b :: t) unitOf) :=
              (mem_jsSetOf _ _).mpr hv
            rw [hset] at hu2 hv2
            simp only [List.mem_singleton] at hu2 hv2
            exact huv (hu2.trans hv2.symm)
          | cons w2 ws2 => simp only [updateYAxisTitle, hset]

theorem yAxisTitle_unit_rule_witness :
    2 ≤ (["A", "B"] : List String).length ∧
    updateYAxisTitle ["A", "B"] (fun _ => some "mg/L") = "Value (mg/L)" :=
  ⟨by decide,
   (yAxisTitle_unit_rule ["A", "B"] (fun _ => some "mg/L") (by decide)).1 "mg/L"
     (by decide) (by decide)⟩

theorem optionAll_iff (o : Option ℚ) (p : ℚ → Prop) [DecidablePred p] :
    (o.all fun x => decide (p x)) = true ↔ ∀ x, o = some x → p x := by
  cases o <;> simp [Option.all]

theorem demoStatus_spec (r : RangeDef) (v : ℚ) :
    ((r.min = none ∧ r.max = none) → demoStatus r v = "no_range") ∧
    ((r.min ≠ none ∨ r.max ≠ none) →
      ((demoStatus r v = "acceptable" ↔
        (∀ mn, r.min = some mn → mn ≤ v) ∧ (∀ mx, r.max = some mx → v ≤ mx)) ∧
       (demoStatus r v = "acceptable" ∨ demoStatus r v = "outside_range"))) := by
  constructor
  · rintro ⟨hmin, hmax⟩
    simp [demoStatus, hmin, hmax, Option.isSome]
  · intro hbound
    have hcond : (r.min.isSome || r.max.isSome) = true := by
      rcases hbound with h | h
      · cases hm : r.min with
        | none => exact absurd hm h
        | some x => simp [hm]
      · cases hm : r.max with
        | none => exact absurd hm h
        | some x => simp [hm]
    unfold demoStatus
    rw [if_pos hcond]
    by_cases hc : ((r.min.all fun m => decide (m ≤ v)) &&
        (r.max.all fun m => decide (v ≤ m))) = true
    · rw [if_pos hc]
      refine ⟨⟨fun _ => ?_, fun _ => rfl⟩, Or.inl rfl⟩
      have hpair := hc
      rw [Bool.and_eq_true] at hpair
      exact ⟨(optionAll_iff _ _).mp hpair.1, (optionAll_iff _ _).mp hpair.2⟩
    · rw [if_neg hc]
      refine ⟨⟨fun habs => absurd habs (by decide), fun hboth => ?_⟩, Or.inr rfl⟩
      exfalso
      apply hc
      rw [Bool.and_eq_true]
      exact ⟨(optionAll_iff _ _).mpr hboth.1, (optionAll_iff _ _).mpr hboth.2⟩

/-- C2: in `generateDemoData`, for every station entry and every analyte
with range `r`, the latest-value record is built from the last generated
measurement, and its status is `no_range` when both bounds are absent;
when at least one bound is present it is `acceptable` iff the value
passes every present bound, and `outside_range` otherwise. -/
theorem generateDemoData_latest_status (gen : String → RangeDef → List Meas)
    (ranges : List (String × RangeDef)) :
    ∀ st ∈ (generateDemoData gen ranges).2.2, ∀ (a : String) (r : RangeDef),
      (a, r) ∈ ranges →
      ((a, latestOf (gen a r) r) ∈ st.2 ∧
       ∀ m : Meas, (gen a r).getLast? = some m →
         ∃ lv, latestOf (gen a r) r = some lv ∧ lv.value = m.value ∧
           ((r.min = none ∧ r.max = none) → lv.status = "no_range") ∧
           ((r.min ≠ none ∨ r.max ≠ none) →
             ((lv.status = "acceptable" ↔
                (∀ mn, r.min = some mn → mn ≤ m.value) ∧
                (∀ mx, r.max = some mx → m.value ≤ mx)) ∧
              (lv.status = "acceptable" ∨ lv.status = "outside_range")))) := by
  intro st hst a r har
  constructor
  · have hst2 : st ∈ demoLatestValues gen ranges := hst
    simp only [demoLatestValues, List.mem_map] at hst2
    obtain ⟨p, hp, hpeq⟩ := hst2
    subst hpeq
    exact List.mem_map.mpr ⟨(a, r), har, rfl⟩
  · intro m hm
    refine ⟨⟨m.value, m.date, demoStatus r m.value, r.unit⟩, ?_, rfl,
      (demoStatus_spec r m.value).1, (demoStatus_spec r m.value).2⟩
    simp [latestOf, hm]

theorem generateDemoData_latest_status_witness :
    ∃ lv, latestOf [Meas.mk "2024-01-01" 9] (RangeDef.mk (some 6) (some 8) (some "")) =
        some lv ∧
      lv.value = (Meas.mk "2024-01-01" (9 : ℚ)).value ∧
      (((RangeDef.mk (some (6 : ℚ)) (some 8) (some "")).min = none ∧
        (RangeDef.mk (some (6 : ℚ)) (some 8) (some "")).max = none) →
        lv.status = "no_range") ∧
      (((RangeDef.mk (some (6 : ℚ)) (some 8) (some "")).min ≠ none ∨
        (RangeDef.mk (some (6 : ℚ)) (some 8) (some "")).max ≠ none) →
        ((lv.status = "acceptable" ↔
          (∀ mn, (RangeDef.mk (some (6 : ℚ)) (some 8) (some "")).min = some mn →
            mn ≤ (Meas.mk "2024-01-01" (9 : ℚ)).value) ∧
          (∀ mx, (RangeDef.mk (some (6 : ℚ)) (some 8) (some "")).max = some mx →
            (Meas.mk "2024-01-01" (9 : ℚ)).value ≤ mx)) ∧
         (lv.status = "acceptable" ∨ lv.status = "outside_range"))) :=
  (generateDemoData_latest_status (fun _ _ => [Meas.mk "2024-01-01" 9])
      [("pH", RangeDef.mk (some 6) (some 8) (some ""))]
      ("SRA190", [("pH", latestOf [Meas.mk "2024-01-01" 9]
        (RangeDef.mk (some 6) (some 8) (some "")))])
      (by decide) "pH" (RangeDef.mk (some 6) (some 8) (some ""))
      (by decide)).2 (Meas.mk "2024-01-01" 9) rfl

/-- C7: `addStationMarkers` draws exactly one marker per station, at the
station's coordinates; the marker's fill color is the color of the
station's latest-value status for the given analyte (acceptable → green
`#28a745`, outside_range → red `#dc3545`, no_range → blue `#007bff`,
no_data → gray `#6c757d`), and when no analyte is selected or the
station has no latest-value entry for it, the neutral `#6c757d` is
used. -/
theorem addStationMarkers_spec (data : MapData) (analyte : Option String) (st : MapState) :
    ((addStationMarkers data analyte st).markers.map Prod.fst =
      data.stations.map Prod.fst) ∧
    ∀ code station, (code, station) ∈ data.stations →
      ((code, mkStationMarker data analyte code station) ∈
        (addStationMarkers data analyte st).markers ∧
       (mkStationMarker data analyte code station).lat = station.latitude ∧
       (mkStationMarker data analyte code station).lng = station.longitude ∧
       (analyte = none →
         (mkStationMarker data analyte code station).fillColor = "#6c757d") ∧
       (latestFor data code analyte = none →
         (mkStationMarker data analyte code station).fillColor = "#6c757d") ∧
       (∀ lv, latestFor data code analyte = some lv →
         ((lv.status = "acceptable" →
            (mkStationMarker data analyte code station).fillColor = "#28a745") ∧
          (lv.status = "outside_range" →
            (mkStationMarker data analyte code station).fillColor = "#dc3545") ∧
          (lv.status = "no_range" →
            (mkStationMarker data analyte code station).fillColor = "#007bff") ∧
          (lv.status = "no_data" →
            (mkStationMarker data analyte code station).fillColor = "#6c757d")))) := by
  constructor
  · simp [addStationMarkers, List.map_map, Function.comp]
  · intro code station hmem
    refine ⟨List.mem_map.mpr ⟨(code, station), hmem, rfl⟩, rfl, rfl, ?_, ?_, ?_⟩
    · rintro rfl
      rfl
    · intro hnone
      simp only [mkStationMarker, markerStatus, hnone]
      rfl
    · intro lv hsome
      refine ⟨?_, ?_, ?_, ?_⟩ <;> intro hstat <;>
        simp [mkStationMarker, markerStatus, hsome, hstat, colorForStatus,
          markerColors] <;> decide

theorem addStationMarkers_spec_witness :
    ("S1", StationRec.mk "Station One" 37 (-121) ["pH"]) ∈
      [("S1", StationRec.mk "Station One" 37 (-121) ["pH"])] ∧
    (mkStationMarker
      (MapData.mk [("S1", StationRec.mk "Station One" 37 (-121) ["pH"])]
        [("S1", [("pH", LatestValue.mk 9 "2024-01-01" "outside_range" (some ""))])])
      (some "pH") "S1" (StationRec.mk "Station One" 37 (-121) ["pH"])).fillColor
      = "#dc3545" :=
  ⟨by decide,
   ((addStationMarkers_spec
      (MapData.mk [("S1", StationRec.mk "Station One" 37 (-121) ["pH"])]
        [("S1", [("pH", LatestValue.mk 9 "2024-01-01" "outside_range" (some ""))])])
      (some "pH") (MapState.mk [] .initial)).2 "S1"
      (StationRec.mk "Station One" 37 (-121) ["pH"]) (by decide)).2.2.2.2.2
      (LatestValue.mk 9 "2024-01-01" "outside_range" (some "")) rfl |>.2.1 rfl⟩

/-- C8: `updateMarkerColors` only touches each existing marker's fill
color and popup content: the set of marker keys, every marker's position
and radius, and the viewport are all unchanged — no marker is added,
removed or redrawn, and no viewport refit happens. -/
theorem updateMarkerColors_frame (data : MapData) (analyte : Option String) (st : MapState) :
    ((updateMarkerColors data analyte st).markers.map Prod.fst =
        st.markers.map Prod.fst) ∧
    ((updateMarkerColors data analyte st).markers.map
        (fun p => (p.2.lat, p.2.lng, p.2.radius)) =
      st.markers.map (fun p => (p.2.lat, p.2.lng, p.2.radius))) ∧
    (updateMarkerColors data analyte st).viewport = st.viewport := by
  refine ⟨?_, ?_, rfl⟩ <;> simp [updateMarkerColors, List.map_map, Function.comp]

theorem nodup_jsSetAdd {α : Type} [DecidableEq α] (l : List α) (a : α) (h : l.Nodup) :
    (jsSetAdd l a).Nodup := by
  unfold jsSetAdd
  by_cases ha : a ∈ l
  · simpa [ha] using h
  · simp only [if_neg ha]
    rw [List.nodup_append]
    exact ⟨h, List.nodup_singleton a, List.disjoint_singleton.mpr ha⟩

theorem nodup_foldl_jsSetAdd {α : Type} [DecidableEq α] (l : List α) :
    ∀ acc : List α, acc.Nodup → (l.foldl jsSetAdd acc).Nodup := by
  induction l with
  | nil => intro acc h; exact h
  | cons a t ih => intro acc h; exact ih _ (nodup_jsSetAdd acc a h)

theorem nodup_jsSetOf {α : Type} [DecidableEq α] (l : List α) : (jsSetOf l).Nodup :=
  nodup_foldl_jsSetAdd l [] List.nodup_nil

/-- C10: `getAnalytes` returns a duplicate-free list, sorted ascending,
whose members are exactly the analytes occurring in some station's
analyte list. -/
theorem getAnalytes_spec (stations : List StationRec) :
    (getAnalytes stations).Nodup ∧
    (getAnalytes stations).Sorted (fun a b : String => a ≤ b) ∧
    ∀ a : String, a ∈ getAnalytes stations ↔ ∃ s ∈ stations, a ∈ s.analytes := by
  refine ⟨?_, ?_, ?_⟩
  · exact (List.perm_insertionSort _ _).nodup_iff.mpr
      (nodup_jsSetOf (stations.flatMap StationRec.analytes))
  · exact List.sorted_insertionSort _ _
  · intro a
    unfold getAnalytes
    rw [(List.perm_insertionSort _ _).mem_iff, mem_jsSetOf, List.mem_flatMap]

end CreekMonitoring
